import Mathlib

/-!
Shallow embedding of the `cosmic-files` UI glue layer: the icon cache
(`src/app/icons.rs`) and the menu builders (`src/menu.rs`).

External collaborators that live outside the two given source files
(the `tab` module's data types, `trash_entries`, `Mode::multiple`,
`DialogKind::save`, desktop-entry loading, the libcosmic widget toolkit,
and Cargo feature flags) are represented as plain data and as parameters
of an environment record: the menu code only consumes them.
-/

set_option autoImplicit false

/-- Toolkit icon handle. `icon::from_name(name).size(size).handle()` becomes
`Handle.themed name size`; `icon::from_svg_bytes(data).symbolic(b)` becomes
`Handle.svg path b`, where `path` identifies the embedded SVG resource. -/
inductive Handle where
  | themed (name : String) (size : Nat)
  | svg (path : String) (symbolic : Bool)
  deriving DecidableEq

/-- Result of `icon::icon(handle).size(size)`. -/
structure Icon where
  handle : Handle
  size : Nat
  deriving DecidableEq

/-- Key of the icon cache: an icon name paired with a pixel size. -/
structure IconCacheKey where
  name : String
  size : Nat
  deriving DecidableEq

/-- Lookup in an association list, mirroring `HashMap` lookup. -/
def alist_lookup : List (IconCacheKey × Handle) → IconCacheKey → Option Handle
  | [], _ => none
  | (k, v) :: rest, key => if k = key then some v else alist_lookup rest key

/-- Insert into an association list, mirroring `HashMap::insert`
(replaces the value when the key is present). -/
def alist_insert : List (IconCacheKey × Handle) → IconCacheKey → Handle → List (IconCacheKey × Handle)
  | [], k, v => [(k, v)]
  | (k', v') :: rest, k, v =>
    if k' = k then (k, v) :: rest else (k', v') :: alist_insert rest k v

/-- The icon cache: a map from `IconCacheKey` to `Handle`. -/
structure IconCache where
  cache : List (IconCacheKey × Handle)
  deriving DecidableEq

/-- The fixed bundle list of `IconCache::new`, in source order. The name
`arrow-into-box-symbolic` occurs twice, exactly as in the source. -/
def bundled_icons : List (String × Nat) :=
  [("tab-new-filled-symbolic", 14),
   ("value-increase-symbolic", 14),
   ("value-decrease-symbolic", 14),
   ("loupe-symbolic", 14),
   ("folder-symbolic", 14),
   ("folder-new-symbolic", 14),
   ("edit-copy-symbolic", 14),
   ("paper-symbolic", 14),
   ("document-open-symbolic", 14),
   ("arrow-into-box-symbolic", 14),
   ("edit-symbolic", 14),
   ("user-trash-symbolic", 14),
   ("cross-small-square-filled-symbolic", 14),
   ("external-link-symbolic", 14),
   ("cut-symbolic", 14),
   ("copy-symbolic", 14),
   ("clipboard-symbolic", 14),
   ("edit-select-all-symbolic", 14),
   ("history-undo-symbolic", 14),
   ("grid-symbolic", 14),
   ("list-large-symbolic", 14),
   ("view-conceal-symbolic", 14),
   ("settings-symbolic", 14),
   ("info-outline-symbolic", 14),
   ("dock-left-symbolic", 14),
   ("arrow-into-box-symbolic", 14),
   ("image-round-symbolic", 14),
   ("terminal-symbolic", 14),
   ("symbolic-link-symbolic", 14),
   ("package-x-generic-symbolic", 14),
   ("archive-extract-symbolic", 14),
   ("brush-monitor-symbolic", 14),
   ("display-symbolic", 14),
   ("shell-overview-symbolic", 14),
   ("empty-trash-bin-symbolic", 14)]

/-- The handle a `bundle!` invocation stores: a symbolic handle built from
the embedded SVG bytes at `../../res/icons/bundled/<name>.svg`. -/
def bundle_data (name : String) : Handle :=
  Handle.svg ("../../res/icons/bundled/" ++ name ++ ".svg") true

/-- `IconCache::new`: inserts every `bundle!` entry into an empty map. -/
def IconCache.new : IconCache :=
  ⟨bundled_icons.foldl (fun c p => alist_insert c ⟨p.1, p.2⟩ (bundle_data p.1)) []⟩

/-- `IconCache::get_handle`: `entry(key).or_insert_with(|| from_name(name).size(size).handle())`,
returning a clone of the stored handle together with the successor cache. -/
def IconCache.get_handle (c : IconCache) (name : String) (size : Nat) : Handle × IconCache :=
  match alist_lookup c.cache ⟨name, size⟩ with
  | some h => (h, c)
  | none =>
    let h := Handle.themed name size
    (h, ⟨alist_insert c.cache ⟨name, size⟩ h⟩)

/-- `IconCache::get_icon`: same entry logic as `get_handle`, wrapping the
stored handle as `icon::icon(handle).size(size)`. -/
def IconCache.get_icon (c : IconCache) (name : String) (size : Nat) : Icon × IconCache :=
  match alist_lookup c.cache ⟨name, size⟩ with
  | some h => (⟨h, size⟩, c)
  | none =>
    let h := Handle.themed name size
    (⟨h, size⟩, ⟨alist_insert c.cache ⟨name, size⟩ h⟩)

/-- State of the global `ICON_CACHE` cell: not yet initialized (`none`), or a
mutex that is either healthy or poisoned. -/
inductive CacheLock where
  | unpoisoned (c : IconCache)
  | poisoned
  deriving DecidableEq

/-- Module-level `icons::get_handle`: `ICON_CACHE.get().unwrap().lock().unwrap()`
followed by the method call. A panic (unwrap of `None`, poisoned lock) is
modelled as `none`. -/
def icons.get_handle (g : Option CacheLock) (name : String) (size : Nat) :
    Option (Handle × CacheLock) :=
  match g with
  | none => none
  | some CacheLock.poisoned => none
  | some (CacheLock.unpoisoned c) =>
    let p := c.get_handle name size
    some (p.1, CacheLock.unpoisoned p.2)

/-- Module-level `icons::get_icon`, with panics modelled as `none`. -/
def icons.get_icon (g : Option CacheLock) (name : String) (size : Nat) :
    Option (Icon × CacheLock) :=
  match g with
  | none => none
  | some CacheLock.poisoned => none
  | some (CacheLock.unpoisoned c) =>
    let p := c.get_icon name size
    some (p.1, CacheLock.unpoisoned p.2)

/-- `tab::Location` (payloads reduced to the strings the menu code can observe). -/
inductive Location where
  | Desktop (path : String)
  | Path (path : String)
  | Search (path : String)
  | Recents
  | Network (uri : String)
  | Trash
  deriving DecidableEq

/-- Locations covered by the `Desktop(..) | Path(..) | Search(..) | Recents` rows
of the `match` in `context_menu`. -/
def Location.is_context_main : Location → Bool
  | Location.Desktop _ => true
  | Location.Path _ => true
  | Location.Search _ => true
  | Location.Recents => true
  | _ => false

/-- `matches!(loc, Location::Search(..))`. -/
def Location.is_search : Location → Bool
  | Location.Search _ => true
  | _ => false

/-- `matches!(loc, Location::Desktop(..))`. -/
def Location.is_desktop : Location → Bool
  | Location.Desktop _ => true
  | _ => false

/-- `tab::DialogKind`, reduced to the one observation `context_menu` makes of it. -/
structure DialogKind where
  save : Bool
  deriving DecidableEq

/-- `tab::Mode`. -/
inductive Mode where
  | App
  | Desktop
  | Dialog (kind : DialogKind)
  deriving DecidableEq

/-- `tab::HeadingOptions`. -/
inductive HeadingOptions where
  | Name
  | Modified
  | Size
  | TrashedOn
  deriving DecidableEq

/-- `tab::View`. -/
inductive View where
  | Grid
  | List
  deriving DecidableEq

/-- The fields of `tab.config` the menu builders read. -/
structure TabConfig where
  view : View
  show_hidden : Bool
  folders_first : Bool
  deriving DecidableEq

/-- A `tab::Item`, reduced to the observations the menu builders make:
`item.selected`, `item.metadata.is_dir()`, `item.location_opt`, `item.mime`
and `item.can_gallery()`. -/
structure Item where
  selected : Bool
  is_dir : Bool
  location_opt : Option Location
  mime : String
  can_gallery : Bool
  deriving DecidableEq

/-- A `tab::Tab`, reduced to the observations the menu builders make;
`sort_name` and `sort_direction` are the first two components of
`tab.sort_options()` (the third is never read here). -/
structure Tab where
  mode : Mode
  location : Location
  items_opt : Option (List Item)
  sort_name : HeadingOptions
  sort_direction : Bool
  config : TabConfig
  deriving DecidableEq

/-- The application `Config` field read by `menu_bar`. -/
structure Config where
  show_details : Bool
  deriving DecidableEq

/-- An action of a parsed desktop entry (`cosmic::desktop`): only its `name`
is read. -/
structure DesktopAction where
  name : String
  deriving DecidableEq

/-- A parsed desktop entry: only `desktop_actions` is read. -/
structure DesktopEntry where
  desktop_actions : List DesktopAction
  deriving DecidableEq

/-- The compile-time feature flags referenced by `menu.rs`. -/
structure Features where
  desktop : Bool
  bzip2 : Bool
  liblzma : Bool

/-- Environment of external collaborators: `tab::trash_entries()`, desktop-entry
loading (`cosmic::desktop::load_desktop_file` with the current language already
applied), `Mode::multiple` (defined in the `tab` module, outside the given
sources, hence kept abstract), and the feature flags. -/
structure Env where
  features : Features
  trash_entries : Nat
  load_desktop_file : String → Option DesktopEntry
  mode_multiple : Mode → Bool

/-- `Action` from the `app` module: the user-intent value carried by menu items
(only the variants `menu.rs` constructs). Named `AppAction` here because the
plain name is taken by the library. -/
inductive AppAction where
  | Open
  | EmptyTrash
  | ExecEntryAction (i : Nat)
  | Rename
  | Cut
  | Copy
  | MoveToTrash
  | OpenWith
  | OpenTerminal
  | OpenItemLocation
  | OpenInNewTab
  | OpenInNewWindow
  | ExtractHere
  | Compress
  | Preview
  | AddToSidebar
  | NewFolder
  | NewFile
  | SelectAll
  | Paste
  | CosmicSettingsWallpaper
  | CosmicSettingsAppearance
  | CosmicSettingsDisplays
  | ToggleSort (variant : HeadingOptions)
  | DesktopViewOptions
  | RestoreFromTrash
  | SetSort (variant : HeadingOptions) (dir : Bool)
  | TabViewGrid
  | TabViewList
  | ZoomIn
  | ZoomDefault
  | ZoomOut
  | ToggleShowHidden
  | ToggleFoldersFirst
  | Gallery
  | TabNew
  | WindowNew
  | TabClose
  | WindowClose
  | EditHistory
  | Settings
  | About
  deriving DecidableEq

/-- `LocationMenuAction` from the `tab` module (emitted by `location_context_menu`). -/
inductive LocationMenuAction where
  | OpenInNewTab (i : Nat)
  | OpenInNewWindow (i : Nat)
  | Preview (i : Nat)
  | AddToSidebar (i : Nat)
  deriving DecidableEq

/-- `tab::Message`: the messages a context-menu press can emit. -/
inductive TabMessage where
  | ContextAction (a : AppAction)
  | LocationMenuAction (a : LocationMenuAction)
  deriving DecidableEq

/-- A key binding; `display` is what `key_bind.to_string()` renders. -/
structure KeyBind where
  display : String
  deriving DecidableEq

/-- `find_key`: first key bind of the table whose action equals `action`,
rendered with `to_string`; the empty string when none matches. -/
def find_key : List (KeyBind × AppAction) → AppAction → String
  | [], _ => ""
  | (kb, ka) :: rest, action => if action = ka then kb.display else find_key rest action

/-- Model of `std::path::Path::extension` on a textual path: the part of the
final component after its last dot, `none` for no dot or a leading-dot-only
name. Used only inside the desktop-entry guard. -/
def path_extension (p : String) : Option String :=
  let file := (p.splitOn "/").getLastD ""
  match file.splitOn "." with
  | [] => none
  | [_] => none
  | parts =>
    if parts.length = 2 ∧ (parts.headD "").isEmpty then none
    else some (parts.getLastD "")

/-- Accumulator of the selection loop at the top of `context_menu`. -/
structure SelAccum where
  selected : Nat
  selected_dir : Nat
  selected_trash_only : Bool
  selected_desktop_entry : Option String
  selected_types : List String
  deriving DecidableEq

/-- One iteration of the selection loop of `context_menu`. -/
def sel_step (acc : SelAccum) (item : Item) : SelAccum :=
  if item.selected then
    let selected := acc.selected + 1
    let selected_dir := if item.is_dir then acc.selected_dir + 1 else acc.selected_dir
    let trash_entry : Bool × Option String :=
      match item.location_opt with
      | some Location.Trash => (true, acc.selected_desktop_entry)
      | some (Location.Path p) =>
        (acc.selected_trash_only,
          if selected = 1 ∧ path_extension p = some "desktop" then some p
          else acc.selected_desktop_entry)
      | _ => (acc.selected_trash_only, acc.selected_desktop_entry)
    { selected := selected
      selected_dir := selected_dir
      selected_trash_only := trash_entry.1
      selected_desktop_entry := trash_entry.2
      selected_types := acc.selected_types ++ [item.mime] }
  else acc

/-- The whole selection loop of `context_menu` over `tab.items_opt()`. -/
def sel_scan (items : List Item) : SelAccum :=
  items.foldl sel_step ⟨0, 0, false, none, []⟩

/-- Rust `Vec::dedup`: remove consecutive duplicates. -/
def dedup_consec : List String → List String
  | [] => []
  | [a] => [a]
  | a :: b :: rest =>
    if a = b then dedup_consec (b :: rest) else a :: dedup_consec (b :: rest)

/-- Insert into a sorted list (helper of the model of `sort_unstable`). -/
def sort_insert (a : String) : List String → List String
  | [] => [a]
  | b :: rest => if a ≤ b then a :: b :: rest else b :: sort_insert a rest

/-- Model of `Vec::sort_unstable` on the mime-type strings (insertion sort;
only the sortedness and the multiset of elements are observable here). -/
def sort_strings : List String → List String
  | [] => []
  | a :: rest => sort_insert a (sort_strings rest)

/-- The `supported_archive_types` list of `context_menu` (mime types modelled
as their strings; parsing each constant succeeds). The bzip2 and xz entries
are present exactly when the corresponding features are enabled. -/
def supported_archive_types (env : Env) : List String :=
  ["application/gzip", "application/x-compressed-tar", "application/x-tar",
   "application/zip"] ++
  (if env.features.bzip2 then
    ["application/x-bzip", "application/x-bzip-compressed-tar"] else []) ++
  (if env.features.liblzma then
    ["application/x-xz", "application/x-xz-compressed-tar"] else [])

/-- The desktop-entry rebinding of `context_menu`: with the `desktop` feature,
`selected_desktop_entry.and_then(|path| if selected == 1 { load_desktop_file(..) })`
and the entry's `desktop_actions`; without the feature the raw path option is
what the branch tests, and the action loop is compiled out. -/
def entry_actions (env : Env) (acc : SelAccum) : Option (List DesktopAction) :=
  if env.features.desktop then
    (acc.selected_desktop_entry.bind fun path =>
      if acc.selected = 1 then env.load_desktop_file path else none).map
      (fun e => e.desktop_actions)
  else
    acc.selected_desktop_entry.map (fun _ => [])

/-- An entry of the context-menu column before icon resolution and key lookup:
a `menu_item` with its label, optional icon name, and action, or a divider. -/
inductive AbsElem where
  | item (label : String) (icon : Option String) (action : AppAction)
  | divider
  deriving DecidableEq

/-- `sort_item` of `context_menu`: a `menu_item` whose label carries the
arrow suffix for the active sort column. -/
def sort_item_abs (sort_name : HeadingOptions) (sort_direction : Bool)
    (label : String) (icon : Option String) (variant : HeadingOptions) : AbsElem :=
  AbsElem.item
    (label ++ " " ++
      (match decide (sort_name = variant), sort_direction with
        | true, true => "⬇"
        | true, false => "⬆"
        | _, _ => ""))
    icon (AppAction.ToggleSort variant)

/-- The `selected_trash_only` branch: Open, then Empty Trash when
`trash_entries() > 0`. -/
def trash_branch (env : Env) : List AbsElem :=
  [AbsElem.item "open" (some "document-open-symbolic") AppAction.Open] ++
  (if env.trash_entries > 0 then
    [AbsElem.item "empty-trash" (some "user-trash-symbolic") AppAction.EmptyTrash]
  else [])

/-- The single-`.desktop`-entry branch of `context_menu`. -/
def entry_branch (actions : List DesktopAction) : List AbsElem :=
  [AbsElem.item "open" (some "document-open-symbolic") AppAction.Open] ++
  (actions.enum.map fun p => AbsElem.item p.2.name none (AppAction.ExecEntryAction p.1)) ++
  [AbsElem.divider,
   AbsElem.item "rename" (some "edit-symbolic") AppAction.Rename,
   AbsElem.item "cut" (some "cut-symbolic") AppAction.Cut,
   AbsElem.item "copy" (some "copy-symbolic") AppAction.Copy,
   AbsElem.item "move-to-trash" (some "user-trash-symbolic") AppAction.MoveToTrash]

/-- The general `selected > 0` branch of `context_menu` in App/Desktop mode. -/
def general_branch (env : Env) (mode : Mode) (location : Location)
    (selected selected_dir : Nat) (selected_types : List String) : List AbsElem :=
  let retained := selected_types.filter fun t => !((supported_archive_types env).contains t)
  (if selected_dir = 1 ∧ selected = 1 ∨ selected_dir = 0 then
    [AbsElem.item "open" (some "document-open-symbolic") AppAction.Open] else []) ++
  (if selected = 1 then
    [AbsElem.item "open-with" (some "external-link-symbolic") AppAction.OpenWith] ++
    (if selected_dir = 1 then
      [AbsElem.item "open-in-terminal" (some "terminal-symbolic") AppAction.OpenTerminal]
    else [])
  else []) ++
  (if location.is_search then
    [AbsElem.item "open-item-location" (some "symbolic-link-symbolic") AppAction.OpenItemLocation]
  else []) ++
  (if selected = selected_dir ∧ mode = Mode.App then
    [AbsElem.item "open-in-new-tab" (some "tab-new-filled-symbolic") AppAction.OpenInNewTab,
     AbsElem.item "open-in-new-window" (some "edit-copy-symbolic") AppAction.OpenInNewWindow]
  else []) ++
  [AbsElem.divider,
   AbsElem.item "rename" (some "edit-symbolic") AppAction.Rename,
   AbsElem.item "cut" (some "cut-symbolic") AppAction.Cut,
   AbsElem.item "copy" (some "copy-symbolic") AppAction.Copy,
   AbsElem.divider] ++
  (if retained.isEmpty then
    [AbsElem.item "extract-here" (some "archive-extract-symbolic") AppAction.ExtractHere]
  else []) ++
  [AbsElem.item "compress" (some "package-x-generic-symbolic") AppAction.Compress,
   AbsElem.divider,
   AbsElem.item "show-details" (some "info-outline-symbolic") AppAction.Preview] ++
  (if mode = Mode.App then
    [AbsElem.divider,
     AbsElem.item "add-to-sidebar" (some "dock-left-symbolic") AppAction.AddToSidebar]
  else []) ++
  [AbsElem.divider,
   AbsElem.item "move-to-trash" (some "user-trash-symbolic") AppAction.MoveToTrash]

/-- The empty-selection branch of `context_menu` in App/Desktop mode. -/
def no_selection_branch (env : Env) (mode : Mode) (location : Location)
    (sort_name : HeadingOptions) (sort_direction : Bool) : List AbsElem :=
  [AbsElem.item "new-folder" (some "folder-new-symbolic") AppAction.NewFolder,
   AbsElem.item "new-file" (some "paper-symbolic") AppAction.NewFile,
   AbsElem.item "open-in-terminal" (some "terminal-symbolic") AppAction.OpenTerminal,
   AbsElem.divider] ++
  (if env.mode_multiple mode then
    [AbsElem.item "select-all" (some "edit-select-all-symbolic") AppAction.SelectAll]
  else []) ++
  [AbsElem.item "paste" (some "clipboard-symbolic") AppAction.Paste] ++
  (if mode = Mode.Desktop then
    [AbsElem.divider,
     AbsElem.item "change-wallpaper" (some "image-symbolic") AppAction.CosmicSettingsWallpaper,
     AbsElem.item "desktop-appearance" (some "brush-monitor-symbolic") AppAction.CosmicSettingsAppearance,
     AbsElem.item "display-settings" (some "display-symbolic") AppAction.CosmicSettingsDisplays]
  else []) ++
  [AbsElem.divider,
   sort_item_abs sort_name sort_direction "sort-by-name" none HeadingOptions.Name,
   sort_item_abs sort_name sort_direction "sort-by-modified" none HeadingOptions.Modified,
   sort_item_abs sort_name sort_direction "sort-by-size" none HeadingOptions.Size] ++
  (if location.is_desktop then
    [AbsElem.divider,
     AbsElem.item "desktop-view-options" (some "shell-overview-symbolic") AppAction.DesktopViewOptions]
  else [])

/-- The `selected > 0` branch of `context_menu` in Dialog mode. -/
def dialog_selected_branch (location : Location) (selected selected_dir : Nat) : List AbsElem :=
  (if selected_dir = 1 ∧ selected = 1 ∨ selected_dir = 0 then
    [AbsElem.item "open" (some "document-open-symbolic") AppAction.Open] else []) ++
  (if location.is_search then
    [AbsElem.item "open-item-location" (some "symbolic-link-symbolic") AppAction.OpenItemLocation]
  else []) ++
  [AbsElem.divider,
   AbsElem.item "show-details" (some "info-outline-symbolic") AppAction.Preview]

/-- The empty-selection branch of `context_menu` in Dialog mode. -/
def dialog_empty_branch (env : Env) (mode : Mode) (save : Bool)
    (sort_name : HeadingOptions) (sort_direction : Bool) : List AbsElem :=
  let base :=
    (if save then
      [AbsElem.item "new-folder" (some "folder-new-symbolic") AppAction.NewFolder] else []) ++
    (if env.mode_multiple mode then
      [AbsElem.item "select-all" (some "edit-select-all-symbolic") AppAction.SelectAll] else [])
  base ++ (if base.isEmpty then [] else [AbsElem.divider]) ++
  [sort_item_abs sort_name sort_direction "sort-by-name" none HeadingOptions.Name,
   sort_item_abs sort_name sort_direction "sort-by-modified" none HeadingOptions.Modified,
   sort_item_abs sort_name sort_direction "sort-by-size" none HeadingOptions.Size]

/-- The `(_, Location::Network(..))` arm of `context_menu`. -/
def network_branch (env : Env) (mode : Mode) (selected selected_dir : Nat)
    (sort_name : HeadingOptions) (sort_direction : Bool) : List AbsElem :=
  if selected > 0 then
    (if selected_dir = 1 ∧ selected = 1 ∨ selected_dir = 0 then
      [AbsElem.item "open" (some "document-open-symbolic") AppAction.Open] else [])
  else
    let base :=
      if env.mode_multiple mode then
        [AbsElem.item "select-all" (some "edit-select-all-symbolic") AppAction.SelectAll]
      else []
    base ++ (if base.isEmpty then [] else [AbsElem.divider]) ++
    [sort_item_abs sort_name sort_direction "sort-by-name" none HeadingOptions.Name,
     sort_item_abs sort_name sort_direction "sort-by-modified" none HeadingOptions.Modified,
     sort_item_abs sort_name sort_direction "sort-by-size" none HeadingOptions.Size]

/-- The `(_, Location::Trash)` arm of `context_menu`. -/
def trash_location_branch (env : Env) (mode : Mode) (selected : Nat)
    (sort_name : HeadingOptions) (sort_direction : Bool) : List AbsElem :=
  let base :=
    if env.mode_multiple mode then
      [AbsElem.item "select-all" (some "edit-select-all-symbolic") AppAction.SelectAll]
    else []
  base ++ (if base.isEmpty then [] else [AbsElem.divider]) ++
  (if selected > 0 then
    [AbsElem.item "show-details" (some "info-outline-symbolic") AppAction.Preview,
     AbsElem.divider,
     AbsElem.item "restore-from-trash" (some "empty-trash-bin-symbolic") AppAction.RestoreFromTrash]
  else
    [sort_item_abs sort_name sort_direction "sort-by-name" none HeadingOptions.Name,
     sort_item_abs sort_name sort_direction "sort-by-trashed" none HeadingOptions.TrashedOn,
     sort_item_abs sort_name sort_direction "sort-by-size" none HeadingOptions.Size])

/-- The `(App | Desktop, Desktop | Path | Search | Recents)` arm of the
`match` in `context_menu`: trash branch, desktop-entry branch, general
selected branch, or empty-selection branch, chosen in source order
(`selected_trash_only` already carries the `&& selected == 1` update). -/
def context_menu_main_arm (env : Env) (mode : Mode) (location : Location)
    (items_opt : Option (List Item))
    (sort_name : HeadingOptions) (sort_direction : Bool) : List AbsElem :=
  let acc := sel_scan (items_opt.getD [])
  if acc.selected_trash_only && decide (acc.selected = 1) then trash_branch env
  else
    match entry_actions env acc with
    | some actions => entry_branch actions
    | none =>
      if acc.selected > 0 then
        general_branch env mode location acc.selected acc.selected_dir
          (dedup_consec (sort_strings acc.selected_types))
      else
        no_selection_branch env mode location sort_name sort_direction

/-- The `(Dialog, Desktop | Path | Search | Recents)` arm of the `match` in
`context_menu`. -/
def context_menu_dialog_arm (env : Env) (mode : Mode) (kind : DialogKind)
    (location : Location) (items_opt : Option (List Item))
    (sort_name : HeadingOptions) (sort_direction : Bool) : List AbsElem :=
  let acc := sel_scan (items_opt.getD [])
  if acc.selected > 0 then
    dialog_selected_branch location acc.selected acc.selected_dir
  else
    dialog_empty_branch env mode kind.save sort_name sort_direction

/-- The `children` column assembled by `context_menu`, before icon resolution
and key lookup. -/
def context_menu_children (env : Env) (tab : Tab) : List AbsElem :=
  match tab.mode, tab.location with
  | Mode.App, Location.Desktop _ | Mode.App, Location.Path _
  | Mode.App, Location.Search _ | Mode.App, Location.Recents
  | Mode.Desktop, Location.Desktop _ | Mode.Desktop, Location.Path _
  | Mode.Desktop, Location.Search _ | Mode.Desktop, Location.Recents =>
    context_menu_main_arm env tab.mode tab.location tab.items_opt
      tab.sort_name tab.sort_direction
  | Mode.Dialog kind, Location.Desktop _ | Mode.Dialog kind, Location.Path _
  | Mode.Dialog kind, Location.Search _ | Mode.Dialog kind, Location.Recents =>
    context_menu_dialog_arm env tab.mode kind tab.location tab.items_opt
      tab.sort_name tab.sort_direction
  | _, Location.Network _ =>
    network_branch env tab.mode (sel_scan (tab.items_opt.getD [])).selected
      (sel_scan (tab.items_opt.getD [])).selected_dir tab.sort_name tab.sort_direction
  | _, Location.Trash =>
    trash_location_branch env tab.mode (sel_scan (tab.items_opt.getD [])).selected
      tab.sort_name tab.sort_direction

/-- A rendered context-menu entry: a `menu_button` row holding the label, the
resolved icon handle, the shortcut text from `find_key`, the action, and the
message its `on_press` emits; or a divider. -/
inductive MenuElement where
  | item (label : String) (icon : Option Handle) (key : String)
      (action : AppAction) (on_press : TabMessage)
  | divider
  deriving DecidableEq

/-- `menu_item` of `context_menu`: looks up the shortcut text, resolves the
icon through the process icon cache, and wires `on_press` to
`tab::Message::ContextAction(action)`. -/
def render_elem (key_binds : List (KeyBind × AppAction)) (c : IconCache) :
    AbsElem → MenuElement × IconCache
  | AbsElem.divider => (MenuElement.divider, c)
  | AbsElem.item label none action =>
    (MenuElement.item label none (find_key key_binds action) action
      (TabMessage.ContextAction action), c)
  | AbsElem.item label (some name) action =>
    let p := c.get_handle name 14
    (MenuElement.item label (some p.1) (find_key key_binds action) action
      (TabMessage.ContextAction action), p.2)

/-- Render a whole column of context-menu entries, threading the icon cache
in construction order. -/
def render_children (key_binds : List (KeyBind × AppAction)) (c : IconCache) :
    List AbsElem → List MenuElement × IconCache
  | [] => ([], c)
  | e :: rest =>
    let p := render_elem key_binds c e
    let q := render_children key_binds p.2 rest
    (p.1 :: q.1, q.2)

/-- `context_menu`: the full column of menu entries of the context menu,
together with the icon cache it leaves behind. -/
def context_menu (env : Env) (tab : Tab) (key_binds : List (KeyBind × AppAction))
    (c : IconCache) : List MenuElement × IconCache :=
  render_children key_binds c (context_menu_children env tab)

/-- A `menu::Item` handed to `menu::items` (libcosmic), parametric in the icon
representation: icon names before cache resolution, handles after. -/
inductive BarItem (ι : Type) where
  | Button (label : String) (icon : Option ι) (action : AppAction)
  | ButtonDisabled (label : String) (icon : Option ι) (action : AppAction)
  | CheckBox (label : String) (icon : Option ι) (checked : Bool) (action : AppAction)
  | Divider
  deriving DecidableEq

/-- `menu_button_optional`. -/
def menu_button_optional {ι : Type} (label : String) (icon : Option ι)
    (action : AppAction) (enabled : Bool) : BarItem ι :=
  if enabled then BarItem.Button label icon action
  else BarItem.ButtonDisabled label icon action

/-- One `menu::Tree` of a `MenuBar`: its root widget (reduced to the label or
icon name it displays) and its item list. -/
structure BarTree (ι : Type) where
  root : String
  items : List (BarItem ι)
  deriving DecidableEq

/-- Accumulator of the selection loop of `menu_bar`. -/
structure BarAccum where
  selected : Nat
  selected_dir : Nat
  selected_gallery : Nat
  deriving DecidableEq

/-- One iteration of the selection loop of `menu_bar`. -/
def bar_step (acc : BarAccum) (item : Item) : BarAccum :=
  if item.selected then
    { selected := acc.selected + 1
      selected_dir := if item.is_dir then acc.selected_dir + 1 else acc.selected_dir
      selected_gallery :=
        if item.can_gallery then acc.selected_gallery + 1 else acc.selected_gallery }
  else acc

/-- The whole selection loop of `menu_bar`. -/
def bar_scan (items : List Item) : BarAccum :=
  items.foldl bar_step ⟨0, 0, 0⟩

/-- The item list of the `File` tree of `menu_bar`. -/
def menu_bar_file_items (selected selected_dir : Nat) : List (BarItem String) :=
  [BarItem.Button "new-tab" (some "tab-new-filled-symbolic") AppAction.TabNew,
   BarItem.Button "new-window" (some "edit-copy-symbolic") AppAction.WindowNew,
   BarItem.Button "new-folder" (some "folder-new-symbolic") AppAction.NewFolder,
   BarItem.Button "new-file" (some "paper-symbolic") AppAction.NewFile,
   menu_button_optional "open" (some "document-open-symbolic") AppAction.Open
     (decide (selected > 0 ∧ selected_dir = 0) || decide (selected_dir = 1 ∧ selected = 1)),
   menu_button_optional "open-with" (some "external-link-symbolic") AppAction.OpenWith
     (decide (selected = 1)),
   BarItem.Divider,
   menu_button_optional "rename" (some "edit-symbolic") AppAction.Rename
     (decide (selected > 0)),
   BarItem.Divider,
   menu_button_optional "add-to-sidebar" (some "dock-left-symbolic") AppAction.AddToSidebar
     (decide (selected > 0)),
   BarItem.Divider,
   menu_button_optional "move-to-trash" (some "user-trash-symbolic") AppAction.MoveToTrash
     (decide (selected > 0)),
   BarItem.Divider,
   BarItem.Button "close-tab" (some "cross-small-square-filled-symbolic") AppAction.TabClose,
   BarItem.Button "quit" (some "arrow-into-box-symbolic") AppAction.WindowClose]

/-- The item list of the `Edit` tree of `menu_bar`. -/
def menu_bar_edit_items (selected : Nat) : List (BarItem String) :=
  [menu_button_optional "cut" (some "cut-symbolic") AppAction.Cut (decide (selected > 0)),
   menu_button_optional "copy" (some "copy-symbolic") AppAction.Copy (decide (selected > 0)),
   menu_button_optional "paste" (some "clipboard-symbolic") AppAction.Paste
     (decide (selected > 0)),
   BarItem.Button "select-all" (some "edit-select-all-symbolic") AppAction.SelectAll,
   BarItem.Divider,
   BarItem.Button "history" (some "history-undo-symbolic") AppAction.EditHistory]

/-- The item list of the `View` tree of `menu_bar`. -/
def menu_bar_view_items (tab_opt : Option Tab) (config : Config)
    (selected_gallery : Nat) : List (BarItem String) :=
  [BarItem.Button "zoom-in" (some "value-increase-symbolic") AppAction.ZoomIn,
   BarItem.Button "default-size" (some "loupe-symbolic") AppAction.ZoomDefault,
   BarItem.Button "zoom-out" (some "value-decrease-symbolic") AppAction.ZoomOut,
   BarItem.Divider,
   BarItem.CheckBox "grid-view" (some "grid-symbolic")
     ((tab_opt.map fun t => decide (t.config.view = View.Grid)).getD false)
     AppAction.TabViewGrid,
   BarItem.CheckBox "list-view" (some "list-large-symbolic")
     ((tab_opt.map fun t => decide (t.config.view = View.List)).getD false)
     AppAction.TabViewList,
   BarItem.Divider,
   BarItem.CheckBox "show-hidden-files" (some "view-conceal-symbolic")
     ((tab_opt.map fun t => t.config.show_hidden).getD false)
     AppAction.ToggleShowHidden,
   BarItem.CheckBox "list-directories-first" (some "folder-symbolic")
     ((tab_opt.map fun t => t.config.folders_first).getD false)
     AppAction.ToggleFoldersFirst,
   BarItem.CheckBox "show-details" (some "info-outline-symbolic")
     config.show_details AppAction.Preview,
   BarItem.Divider,
   menu_button_optional "gallery-preview" (some "image-round-symbolic") AppAction.Gallery
     (decide (selected_gallery > 0)),
   BarItem.Divider,
   BarItem.Button "menu-settings" (some "settings-symbolic") AppAction.Settings,
   BarItem.Divider,
   BarItem.Button "menu-about" (some "info-outline-symbolic") AppAction.About]

/-- `sort_item` of `menu_bar`: a checkbox ticked when the current sort options
match, emitting `Action::SetSort`. -/
def bar_sort_item (sort_options : Option (HeadingOptions × Bool)) (label : String)
    (sort : HeadingOptions) (dir : Bool) : BarItem String :=
  BarItem.CheckBox label none
    ((sort_options.map fun p => decide (p.1 = sort) && (p.2 == dir)).getD false)
    (AppAction.SetSort sort dir)

/-- The item list of the `Sort` tree of `menu_bar` (and the sort tree of
`dialog_menu`, which uses the same six entries). -/
def sort_tree_items (sort_options : Option (HeadingOptions × Bool)) (in_trash : Bool) :
    List (BarItem String) :=
  [bar_sort_item sort_options "sort-a-z" HeadingOptions.Name true,
   bar_sort_item sort_options "sort-z-a" HeadingOptions.Name false,
   bar_sort_item sort_options "sort-newest-first"
     (if in_trash then HeadingOptions.TrashedOn else HeadingOptions.Modified) false,
   bar_sort_item sort_options "sort-oldest-first"
     (if in_trash then HeadingOptions.TrashedOn else HeadingOptions.Modified) true,
   bar_sort_item sort_options "sort-smallest-to-largest" HeadingOptions.Size true,
   bar_sort_item sort_options "sort-largest-to-smallest" HeadingOptions.Size false]

/-- The four trees of `menu_bar`, before icon resolution. The key-binding
table is consumed by the external `menu::items`, which attaches shortcut
texts; it does not influence which items appear. -/
def menu_bar_trees (tab_opt : Option Tab) (config : Config) : List (BarTree String) :=
  let acc := bar_scan ((tab_opt.bind Tab.items_opt).getD [])
  let sort_options := tab_opt.map fun t => (t.sort_name, t.sort_direction)
  let in_trash := (tab_opt.map fun t => decide (t.location = Location.Trash)).getD false
  [⟨"file", menu_bar_file_items acc.selected acc.selected_dir⟩,
   ⟨"edit", menu_bar_edit_items acc.selected⟩,
   ⟨"view", menu_bar_view_items tab_opt config acc.selected_gallery⟩,
   ⟨"sort", sort_tree_items sort_options in_trash⟩]

/-- Resolve one `BarItem`'s icon name through the icon cache. -/
def resolve_item (c : IconCache) : BarItem String → BarItem Handle × IconCache
  | BarItem.Button l none a => (BarItem.Button l none a, c)
  | BarItem.Button l (some n) a =>
    let p := c.get_handle n 14
    (BarItem.Button l (some p.1) a, p.2)
  | BarItem.ButtonDisabled l none a => (BarItem.ButtonDisabled l none a, c)
  | BarItem.ButtonDisabled l (some n) a =>
    let p := c.get_handle n 14
    (BarItem.ButtonDisabled l (some p.1) a, p.2)
  | BarItem.CheckBox l none b a => (BarItem.CheckBox l none b a, c)
  | BarItem.CheckBox l (some n) b a =>
    let p := c.get_handle n 14
    (BarItem.CheckBox l (some p.1) b a, p.2)
  | BarItem.Divider => (BarItem.Divider, c)

/-- Resolve a list of items, threading the cache in construction order. -/
def resolve_items (c : IconCache) : List (BarItem String) → List (BarItem Handle) × IconCache
  | [] => ([], c)
  | i :: rest =>
    let p := resolve_item c i
    let q := resolve_items p.2 rest
    (p.1 :: q.1, q.2)

/-- Resolve a list of trees, threading the cache in construction order. -/
def resolve_trees (c : IconCache) : List (BarTree String) → List (BarTree Handle) × IconCache
  | [] => ([], c)
  | t :: rest =>
    let p := resolve_items c t.items
    let q := resolve_trees p.2 rest
    (⟨t.root, p.1⟩ :: q.1, q.2)

/-- `menu_bar`: the four menu trees with icons resolved through the process
icon cache. -/
def menu_bar (tab_opt : Option Tab) (config : Config)
    (key_binds : List (KeyBind × AppAction)) (c : IconCache) :
    List (BarTree Handle) × IconCache :=
  let _ := key_binds
  resolve_trees c (menu_bar_trees tab_opt config)

/-- The three trees of `dialog_menu`, before icon resolution. -/
def dialog_menu_trees (tab : Tab) (show_details : Bool) : List (BarTree String) :=
  let in_trash := decide (tab.location = Location.Trash)
  let sort_item := fun label sort dir =>
    BarItem.CheckBox (ι := String) label none
      (decide (tab.sort_name = sort) && (tab.sort_direction == dir))
      (AppAction.SetSort sort dir)
  let selected_gallery :=
    ((tab.items_opt.getD []).foldl
      (fun n i => if i.selected && i.can_gallery then n + 1 else n) 0)
  [⟨(match tab.config.view with
      | View.Grid => "view-grid-symbolic"
      | View.List => "view-list-symbolic"),
    [BarItem.CheckBox "grid-view" (some "grid-symbolic")
       (decide (tab.config.view = View.Grid)) AppAction.TabViewGrid,
     BarItem.CheckBox "list-view" (some "list-large-symbolic")
       (decide (tab.config.view = View.List)) AppAction.TabViewList]⟩,
   ⟨(if tab.sort_direction then "view-sort-ascending-symbolic"
     else "view-sort-descending-symbolic"),
    [sort_item "sort-a-z" HeadingOptions.Name true,
     sort_item "sort-z-a" HeadingOptions.Name false,
     sort_item "sort-newest-first"
       (if in_trash then HeadingOptions.TrashedOn else HeadingOptions.Modified) false,
     sort_item "sort-oldest-first"
       (if in_trash then HeadingOptions.TrashedOn else HeadingOptions.Modified) true,
     sort_item "sort-smallest-to-largest" HeadingOptions.Size true,
     sort_item "sort-largest-to-smallest" HeadingOptions.Size false]⟩,
   ⟨"view-more-symbolic",
    [BarItem.Button "zoom-in" (some "value-increase-symbolic") AppAction.ZoomIn,
     BarItem.Button "default-size" (some "loupe-symbolic") AppAction.ZoomDefault,
     BarItem.Button "zoom-out" (some "value-decrease-symbolic") AppAction.ZoomOut,
     BarItem.Divider,
     BarItem.CheckBox "show-hidden-files" (some "view-conceal-symbolic")
       tab.config.show_hidden AppAction.ToggleShowHidden,
     BarItem.CheckBox "list-directories-first" (some "folder-symbolic")
       tab.config.folders_first AppAction.ToggleFoldersFirst,
     BarItem.CheckBox "show-details" (some "info-outline-symbolic")
       show_details AppAction.Preview,
     BarItem.Divider,
     menu_button_optional "gallery-preview" (some "image-round-symbolic")
       AppAction.Gallery (decide (selected_gallery > 0))]⟩]

/-- `dialog_menu`: the three menu trees with icons resolved through the
process icon cache. -/
def dialog_menu (tab : Tab) (key_binds : List (KeyBind × AppAction))
    (show_details : Bool) (c : IconCache) : List (BarTree Handle) × IconCache :=
  let _ := key_binds
  resolve_trees c (dialog_menu_trees tab show_details)

/-- The condition the spec states for an enabled Open entry: at least one item
selected and none of the selected items a directory, or exactly one selected
and it a directory. Stated from the claim's words, to be compared with the
code's counting condition. -/
def open_enabled_spec (items : List Item) : Prop :=
  (items.filter (fun i => i.selected) ≠ [] ∧
    ∀ i ∈ items.filter (fun i => i.selected), i.is_dir = false) ∨
  (∃ i, items.filter (fun i => i.selected) = [i] ∧ i.is_dir = true)

/-- A concrete environment used by the witnesses. -/
def env0 : Env :=
  { features := ⟨false, false, false⟩
    trash_entries := 1
    load_desktop_file := fun _ => none
    mode_multiple := fun _ => false }

/-- A selected item sitting in the trash. -/
def item_trash : Item :=
  { selected := true, is_dir := false, location_opt := some Location.Trash
    mime := "application/gzip", can_gallery := false }

/-- A selected plain archive file (no recorded location). -/
def item_file : Item :=
  { selected := true, is_dir := false, location_opt := none
    mime := "application/x-tar", can_gallery := false }

/-- A tab whose single selected item is in the trash. -/
def tab_trash : Tab :=
  { mode := Mode.App, location := Location.Path "/"
    items_opt := some [item_trash]
    sort_name := HeadingOptions.Name, sort_direction := true
    config := ⟨View.Grid, false, false⟩ }

/-- A tab whose single selected item is a plain archive file. -/
def tab_file : Tab :=
  { mode := Mode.App, location := Location.Path "/"
    items_opt := some [item_file]
    sort_name := HeadingOptions.Name, sort_direction := true
    config := ⟨View.Grid, false, false⟩ }

/-- A tab at the Trash location with no items: its context menu is the three
sort entries. -/
def tab_sorts : Tab :=
  { mode := Mode.App, location := Location.Trash
    items_opt := none
    sort_name := HeadingOptions.Name, sort_direction := true
    config := ⟨View.Grid, false, false⟩ }

theorem alist_lookup_insert_self (l : List (IconCacheKey × Handle))
    (k : IconCacheKey) (v : Handle) :
    alist_lookup (alist_insert l k v) k = some v := by
  induction l with
  | nil => simp [alist_insert, alist_lookup]
  | cons p rest ih =>
    obtain ⟨a, b⟩ := p
    by_cases h : a = k
    · simp [alist_insert, alist_lookup, h]
    · simp [alist_insert, alist_lookup, h, ih]

theorem alist_lookup_insert_of_none (l : List (IconCacheKey × Handle))
    (k k' : IconCacheKey) (h : Handle) (v : Handle)
    (hs : alist_lookup l k = some h) (hn : alist_lookup l k' = none) :
    alist_lookup (alist_insert l k' v) k = some h := by
  induction l with
  | nil => simp [alist_lookup] at hs
  | cons p rest ih =>
    obtain ⟨a, b⟩ := p
    have hak' : ¬a = k' := by
      intro hE
      simp [alist_lookup, hE] at hn
    simp only [alist_lookup, if_neg hak'] at hn
    simp only [alist_insert, if_neg hak']
    by_cases hak : a = k
    · simp only [alist_lookup, if_pos hak] at hs ⊢
      exact hs
    · simp only [alist_lookup, if_neg hak] at hs ⊢
      exact ih hs hn

theorem alist_lookup_insert_isSome (l : List (IconCacheKey × Handle))
    (k k' : IconCacheKey) (v : Handle)
    (hs : (alist_lookup l k).isSome = true) :
    (alist_lookup (alist_insert l k' v) k).isSome = true := by
  induction l with
  | nil => simp [alist_lookup] at hs
  | cons p rest ih =>
    obtain ⟨a, b⟩ := p
    simp only [alist_insert]
    by_cases hak' : a = k'
    · rw [if_pos hak']
      by_cases hk'k : k' = k
      · simp [alist_lookup, hk'k]
      · simp only [alist_lookup, if_neg hk'k]
        have hak : ¬a = k := by rw [hak']; exact hk'k
        simp only [alist_lookup, if_neg hak] at hs
        exact hs
    · rw [if_neg hak']
      by_cases hak : a = k
      · simp [alist_lookup, hak]
      · simp only [alist_lookup, if_neg hak] at hs ⊢
        exact ih hs

theorem get_handle_present (c : IconCache) (name : String) (size : Nat) (h : Handle)
    (hl : alist_lookup c.cache ⟨name, size⟩ = some h) :
    c.get_handle name size = (h, c) := by
  simp [IconCache.get_handle, hl]

theorem get_handle_absent (c : IconCache) (name : String) (size : Nat)
    (hl : alist_lookup c.cache ⟨name, size⟩ = none) :
    c.get_handle name size =
      (Handle.themed name size,
        ⟨alist_insert c.cache ⟨name, size⟩ (Handle.themed name size)⟩) := by
  simp [IconCache.get_handle, hl]

theorem get_icon_present (c : IconCache) (name : String) (size : Nat) (h : Handle)
    (hl : alist_lookup c.cache ⟨name, size⟩ = some h) :
    c.get_icon name size = (⟨h, size⟩, c) := by
  simp [IconCache.get_icon, hl]

theorem get_icon_absent (c : IconCache) (name : String) (size : Nat)
    (hl : alist_lookup c.cache ⟨name, size⟩ = none) :
    c.get_icon name size =
      (⟨Handle.themed name size, size⟩,
        ⟨alist_insert c.cache ⟨name, size⟩ (Handle.themed name size)⟩) := by
  simp [IconCache.get_icon, hl]

theorem lookup_get_handle_self (c : IconCache) (name : String) (size : Nat) :
    alist_lookup ((c.get_handle name size).2).cache ⟨name, size⟩ =
      some (c.get_handle name size).1 := by
  cases hl : alist_lookup c.cache ⟨name, size⟩ with
  | some v => rw [get_handle_present c name size v hl]; exact hl
  | none => rw [get_handle_absent c name size hl]; exact alist_lookup_insert_self _ _ _

/-- Claim C1: when the key `(name, size)` is absent, `IconCache::get_handle`
(and `get_icon`) inserts the theme-lookup handle
`icon::from_name(name).size(size).handle()` under that key and returns it;
when the key is present, the stored handle is returned and the cache is left
untouched (no theme lookup happens). -/
theorem icon_cache_get_handle_memoizes (c : IconCache) (name : String) (size : Nat) :
    (alist_lookup c.cache ⟨name, size⟩ = none →
      c.get_handle name size =
        (Handle.themed name size,
          ⟨alist_insert c.cache ⟨name, size⟩ (Handle.themed name size)⟩) ∧
      c.get_icon name size =
        (⟨Handle.themed name size, size⟩,
          ⟨alist_insert c.cache ⟨name, size⟩ (Handle.themed name size)⟩) ∧
      alist_lookup ((c.get_handle name size).2).cache ⟨name, size⟩ =
        some (Handle.themed name size)) ∧
    (∀ h, alist_lookup c.cache ⟨name, size⟩ = some h →
      c.get_handle name size = (h, c) ∧ c.get_icon name size = (⟨h, size⟩, c)) := by
  constructor
  · intro hl
    refine ⟨get_handle_absent c name size hl, get_icon_absent c name size hl, ?_⟩
    rw [get_handle_absent c name size hl]
    exact alist_lookup_insert_self _ _ _
  · intro h hl
    exact ⟨get_handle_present c name size h hl, get_icon_present c name size h hl⟩

theorem icon_cache_get_handle_memoizes_witness :
    (IconCache.mk []).get_handle "x" 14 =
      (Handle.themed "x" 14, ⟨[(⟨"x", 14⟩, Handle.themed "x" 14)]⟩) ∧
    (IconCache.mk [(⟨"y", 14⟩, Handle.svg "p" true)]).get_handle "y" 14 =
      (Handle.svg "p" true, ⟨[(⟨"y", 14⟩, Handle.svg "p" true)]⟩) :=
  ⟨((icon_cache_get_handle_memoizes ⟨[]⟩ "x" 14).1 rfl).1,
   ((icon_cache_get_handle_memoizes ⟨[(⟨"y", 14⟩, Handle.svg "p" true)]⟩ "y" 14).2 _ rfl).1⟩

/-- Claim C3: `IconCache::get_handle` is memoizing and idempotent: after a
first call yields `(h, c')`, calling again on `c'` with the same key returns
the same handle and leaves `c'` unchanged, and `get_icon` on `c'` wraps that
same stored handle. -/
theorem icon_cache_get_handle_idempotent (c : IconCache) (name : String) (size : Nat) :
    ((c.get_handle name size).2).get_handle name size =
      ((c.get_handle name size).1, (c.get_handle name size).2) ∧
    ((c.get_handle name size).2).get_icon name size =
      (⟨(c.get_handle name size).1, size⟩, (c.get_handle name size).2) :=
  ⟨get_handle_present _ name size _ (lookup_get_handle_self c name size),
   get_icon_present _ name size _ (lookup_get_handle_self c name size)⟩

/-- Claim C4: the icon cache never evicts: any key present before a call to
`get_handle` or `get_icon` is still present afterwards with the same handle,
and the set of cached keys only grows. -/
theorem icon_cache_never_evicts (c : IconCache) (k : IconCacheKey) (h : Handle)
    (name : String) (size : Nat) (hk : alist_lookup c.cache k = some h) :
    alist_lookup ((c.get_handle name size).2).cache k = some h ∧
    alist_lookup ((c.get_icon name size).2).cache k = some h ∧
    (∀ k', (alist_lookup c.cache k').isSome = true →
      (alist_lookup ((c.get_handle name size).2).cache k').isSome = true ∧
      (alist_lookup ((c.get_icon name size).2).cache k').isSome = true) := by
  cases hl : alist_lookup c.cache ⟨name, size⟩ with
  | some v =>
    rw [get_handle_present c name size v hl, get_icon_present c name size v hl]
    exact ⟨hk, hk, fun k' hs => ⟨hs, hs⟩⟩
  | none =>
    rw [get_handle_absent c name size hl, get_icon_absent c name size hl]
    refine ⟨alist_lookup_insert_of_none _ _ _ _ _ hk hl,
      alist_lookup_insert_of_none _ _ _ _ _ hk hl, fun k' hs => ?_⟩
    exact ⟨alist_lookup_insert_isSome _ _ _ _ hs, alist_lookup_insert_isSome _ _ _ _ hs⟩

theorem icon_cache_never_evicts_witness :
    alist_lookup
      (((IconCache.mk [(⟨"y", 14⟩, Handle.svg "p" true)]).get_handle "x" 14).2).cache
      ⟨"y", 14⟩ = some (Handle.svg "p" true) :=
  (icon_cache_never_evicts ⟨[(⟨"y", 14⟩, Handle.svg "p" true)]⟩ ⟨"y", 14⟩
    (Handle.svg "p" true) "x" 14 rfl).1

/-- Claim C5, counterexample: the bundle list of `IconCache::new` has 35
invocations over 34 distinct names (only `arrow-into-box-symbolic` repeats),
so the pre-seeded cache has 34 keys, not 33 as the claim counts. -/
theorem icon_cache_new_not_33_keys : IconCache.new.cache.length ≠ 33 := by decide

/-- Claim C5 as amended: `IconCache::new` is pre-seeded with exactly the
distinct names of the `bundle!` invocations, each at size 14 (34 keys, the
duplicated `arrow-into-box-symbolic` yielding a single entry), each mapped to
the symbolic handle built from the bundled SVG bytes, and nothing else. -/
theorem icon_cache_new_seeded :
    IconCache.new.cache.length = 34 ∧
    (∀ p ∈ bundled_icons,
      alist_lookup IconCache.new.cache ⟨p.1, p.2⟩ = some (bundle_data p.1)) ∧
    (∀ e ∈ IconCache.new.cache,
      e.1.size = 14 ∧ (e.1.name, e.1.size) ∈ bundled_icons ∧ e.2 = bundle_data e.1.name) :=
  ⟨by decide, by decide, by decide⟩

theorem icon_cache_new_seeded_witness :
    ("loupe-symbolic", 14) ∈ bundled_icons ∧
    alist_lookup IconCache.new.cache ⟨"loupe-symbolic", 14⟩ =
      some (bundle_data "loupe-symbolic") :=
  ⟨by decide, icon_cache_new_seeded.2.1 ("loupe-symbolic", 14) (by decide)⟩

/-- Claim C9: the module-level `icons::get_handle` and `icons::get_icon` panic
(modelled as `none`) when `ICON_CACHE` is uninitialized or its mutex is
poisoned, and always return a value when it is initialized and unpoisoned. -/
theorem icons_free_functions_total (name : String) (size : Nat) :
    icons.get_handle none name size = none ∧
    icons.get_icon none name size = none ∧
    icons.get_handle (some CacheLock.poisoned) name size = none ∧
    icons.get_icon (some CacheLock.poisoned) name size = none ∧
    (∀ c : IconCache,
      ∃ v, icons.get_handle (some (CacheLock.unpoisoned c)) name size = some v) ∧
    (∀ c : IconCache,
      ∃ v, icons.get_icon (some (CacheLock.unpoisoned c)) name size = some v) :=
  ⟨rfl, rfl, rfl, rfl, fun c => ⟨_, rfl⟩, fun c => ⟨_, rfl⟩⟩

theorem sel_step_selected (acc : SelAccum) (i : Item) :
    (sel_step acc i).selected = acc.selected + (if i.selected then 1 else 0) := by
  cases h : i.selected <;> simp [sel_step, h]

theorem sel_step_dir (acc : SelAccum) (i : Item) :
    (sel_step acc i).selected_dir
      = acc.selected_dir + (if i.selected && i.is_dir then 1 else 0) := by
  cases hs : i.selected <;> cases hd : i.is_dir <;> simp [sel_step, hs, hd]

theorem sel_step_trash (acc : SelAccum) (i : Item) :
    (sel_step acc i).selected_trash_only
      = (acc.selected_trash_only
          || (i.selected && decide (i.location_opt = some Location.Trash))) := by
  cases hs : i.selected
  · simp [sel_step, hs]
  · cases hl : i.location_opt with
    | none => simp [sel_step, hs, hl]
    | some loc => cases loc <;> simp [sel_step, hs, hl]

theorem sel_step_types (acc : SelAccum) (i : Item) :
    (sel_step acc i).selected_types
      = acc.selected_types ++ (if i.selected then [i.mime] else []) := by
  cases hs : i.selected <;> simp [sel_step, hs]

theorem sel_scan_go_selected (l : List Item) (acc : SelAccum) :
    (l.foldl sel_step acc).selected
      = acc.selected + (l.filter (fun i => i.selected)).length := by
  induction l generalizing acc with
  | nil => simp
  | cons i rest ih =>
    simp only [List.foldl_cons]
    rw [ih, sel_step_selected]
    cases h : i.selected <;> simp [h, List.filter_cons] <;> omega

theorem sel_scan_go_dir (l : List Item) (acc : SelAccum) :
    (l.foldl sel_step acc).selected_dir
      = acc.selected_dir + (l.filter (fun i => i.selected && i.is_dir)).length := by
  induction l generalizing acc with
  | nil => simp
  | cons i rest ih =>
    simp only [List.foldl_cons]
    rw [ih, sel_step_dir]
    cases h : (i.selected && i.is_dir) <;> simp [h, List.filter_cons] <;> omega

theorem sel_scan_go_trash (l : List Item) (acc : SelAccum) :
    (l.foldl sel_step acc).selected_trash_only
      = (acc.selected_trash_only
          || l.any (fun i => i.selected && decide (i.location_opt = some Location.Trash))) := by
  induction l generalizing acc with
  | nil => simp
  | cons i rest ih =>
    simp only [List.foldl_cons]
    rw [ih, sel_step_trash]
    simp [Bool.or_assoc]

theorem sel_scan_go_types (l : List Item) (acc : SelAccum) :
    (l.foldl sel_step acc).selected_types
      = acc.selected_types ++ (l.filter (fun i => i.selected)).map (fun i => i.mime) := by
  induction l generalizing acc with
  | nil => simp
  | cons i rest ih =>
    simp only [List.foldl_cons]
    rw [ih, sel_step_types]
    cases h : i.selected <;> simp [h, List.filter_cons]

theorem sel_scan_selected (l : List Item) :
    (sel_scan l).selected = (l.filter (fun i => i.selected)).length := by
  simpa using sel_scan_go_selected l ⟨0, 0, false, none, []⟩

theorem sel_scan_dir (l : List Item) :
    (sel_scan l).selected_dir = (l.filter (fun i => i.selected && i.is_dir)).length := by
  simpa using sel_scan_go_dir l ⟨0, 0, false, none, []⟩

theorem sel_scan_trash (l : List Item) :
    (sel_scan l).selected_trash_only
      = l.any (fun i => i.selected && decide (i.location_opt = some Location.Trash)) := by
  simpa using sel_scan_go_trash l ⟨0, 0, false, none, []⟩

theorem sel_scan_types (l : List Item) :
    (sel_scan l).selected_types = (l.filter (fun i => i.selected)).map (fun i => i.mime) := by
  simpa using sel_scan_go_types l ⟨0, 0, false, none, []⟩

theorem bar_step_selected (acc : BarAccum) (i : Item) :
    (bar_step acc i).selected = acc.selected + (if i.selected then 1 else 0) := by
  cases h : i.selected <;> simp [bar_step, h]

theorem bar_step_dir (acc : BarAccum) (i : Item) :
    (bar_step acc i).selected_dir
      = acc.selected_dir + (if i.selected && i.is_dir then 1 else 0) := by
  cases hs : i.selected <;> cases hd : i.is_dir <;> simp [bar_step, hs, hd]

theorem bar_scan_go_selected (l : List Item) (acc : BarAccum) :
    (l.foldl bar_step acc).selected
      = acc.selected + (l.filter (fun i => i.selected)).length := by
  induction l generalizing acc with
  | nil => simp
  | cons i rest ih =>
    simp only [List.foldl_cons]
    rw [ih, bar_step_selected]
    cases h : i.selected <;> simp [h, List.filter_cons] <;> omega

theorem bar_scan_go_dir (l : List Item) (acc : BarAccum) :
    (l.foldl bar_step acc).selected_dir
      = acc.selected_dir + (l.filter (fun i => i.selected && i.is_dir)).length := by
  induction l generalizing acc with
  | nil => simp
  | cons i rest ih =>
    simp only [List.foldl_cons]
    rw [ih, bar_step_dir]
    cases h : (i.selected && i.is_dir) <;> simp [h, List.filter_cons] <;> omega

theorem bar_scan_selected (l : List Item) :
    (bar_scan l).selected = (l.filter (fun i => i.selected)).length := by
  simpa using bar_scan_go_selected l ⟨0, 0, 0⟩

theorem bar_scan_dir (l : List Item) :
    (bar_scan l).selected_dir = (l.filter (fun i => i.selected && i.is_dir)).length := by
  simpa using bar_scan_go_dir l ⟨0, 0, 0⟩

theorem mem_if_nil {α : Type} (c : Prop) [Decidable c] (a : α) (l : List α) :
    (a ∈ if c then l else []) ↔ c ∧ a ∈ l := by
  split <;> simp [*]

theorem mem_dedup_consec (a : String) (l : List String) :
    a ∈ dedup_consec l ↔ a ∈ l := by
  induction l with
  | nil => simp [dedup_consec]
  | cons b rest ih =>
    cases rest with
    | nil => simp [dedup_consec]
    | cons c2 rest2 =>
      by_cases h : b = c2
      · subst h
        have hd : dedup_consec (b :: b :: rest2) = dedup_consec (b :: rest2) := by
          simp [dedup_consec]
        rw [hd, ih]
        simp only [List.mem_cons]
        tauto
      · simp only [dedup_consec, if_neg h]
        simp only [List.mem_cons] at ih ⊢
        rw [ih]

theorem mem_sort_insert (a b : String) (l : List String) :
    a ∈ sort_insert b l ↔ a = b ∨ a ∈ l := by
  induction l with
  | nil => simp [sort_insert]
  | cons c2 rest ih =>
    by_cases h : b ≤ c2
    · simp [sort_insert, h]
    · simp only [sort_insert, if_neg h, List.mem_cons, ih]
      tauto

theorem mem_sort_strings (a : String) (l : List String) :
    a ∈ sort_strings l ↔ a ∈ l := by
  induction l with
  | nil => simp [sort_strings]
  | cons b rest ih => simp [sort_strings, mem_sort_insert, ih]

theorem string_contains_iff (l : List String) (a : String) :
    l.contains a = true ↔ a ∈ l := by
  induction l with
  | nil => simp
  | cons b rest ih =>
    simp only [List.contains_cons, Bool.or_eq_true, beq_iff_eq, List.mem_cons, ih]

theorem trash_guard_iff (items : List Item) :
    ((sel_scan items).selected_trash_only && decide ((sel_scan items).selected = 1)) = true ↔
    (∃ i, items.filter (fun i => i.selected) = [i] ∧
      i.location_opt = some Location.Trash) := by
  rw [Bool.and_eq_true, decide_eq_true_eq, sel_scan_trash, sel_scan_selected]
  constructor
  · rintro ⟨hany, hlen⟩
    obtain ⟨i, hl⟩ := List.length_eq_one.mp hlen
    refine ⟨i, hl, ?_⟩
    rw [List.any_eq_true] at hany
    obtain ⟨j, hj, hjp⟩ := hany
    rw [Bool.and_eq_true, decide_eq_true_eq] at hjp
    have hjf : j ∈ items.filter (fun i => i.selected) :=
      List.mem_filter.mpr ⟨hj, hjp.1⟩
    rw [hl, List.mem_singleton] at hjf
    rw [← hjf]
    exact hjp.2
  · rintro ⟨i, hl, hloc⟩
    have hif : i ∈ items.filter (fun i => i.selected) := by
      rw [hl]; exact List.mem_singleton_self i
    have hmem := List.mem_filter.mp hif
    constructor
    · rw [List.any_eq_true]
      exact ⟨i, hmem.1, by
        rw [Bool.and_eq_true, decide_eq_true_eq]
        exact ⟨hmem.2, hloc⟩⟩
    · rw [hl]
      rfl

theorem trash_branch_length (env : Env) : (trash_branch env).length ≤ 2 := by
  by_cases h : env.trash_entries > 0 <;> simp [trash_branch, h]

theorem entry_branch_length (a : List DesktopAction) : 3 ≤ (entry_branch a).length := by
  simp only [entry_branch, List.length_append, List.length_map, List.length_cons,
    List.length_nil, List.length_singleton]
  omega

theorem general_branch_length (env : Env) (mode : Mode) (loc : Location)
    (s d : Nat) (t : List String) : 3 ≤ (general_branch env mode loc s d t).length := by
  simp only [general_branch, List.length_append, List.length_cons, List.length_nil,
    apply_ite List.length, List.length_singleton]
  split <;> split <;> split <;> split <;> split <;> omega

theorem no_selection_branch_length (env : Env) (mode : Mode) (loc : Location)
    (sn : HeadingOptions) (sd : Bool) :
    3 ≤ (no_selection_branch env mode loc sn sd).length := by
  simp only [no_selection_branch, List.length_append, List.length_cons, List.length_nil,
    apply_ite List.length, List.length_singleton]
  split <;> split <;> split <;> omega

theorem context_menu_children_main (env : Env) (tab : Tab)
    (hm : tab.mode = Mode.App ∨ tab.mode = Mode.Desktop)
    (hl : tab.location.is_context_main = true) :
    context_menu_children env tab =
      context_menu_main_arm env tab.mode tab.location tab.items_opt
        tab.sort_name tab.sort_direction := by
  obtain ⟨mode, loc, items_opt, sn, sd, cfg⟩ := tab
  cases mode with
  | Dialog kind => simp at hm
  | App =>
    cases loc with
    | Network u => simp [Location.is_context_main] at hl
    | Trash => simp [Location.is_context_main] at hl
    | Desktop p => rfl
    | Path p => rfl
    | Search p => rfl
    | Recents => rfl
  | Desktop =>
    cases loc with
    | Network u => simp [Location.is_context_main] at hl
    | Trash => simp [Location.is_context_main] at hl
    | Desktop p => rfl
    | Path p => rfl
    | Search p => rfl
    | Recents => rfl

theorem main_arm_trash_iff (env : Env) (mode : Mode) (loc : Location)
    (items_opt : Option (List Item)) (sn : HeadingOptions) (sd : Bool) :
    (context_menu_main_arm env mode loc items_opt sn sd = trash_branch env ↔
      ∃ i, (items_opt.getD []).filter (fun i => i.selected) = [i] ∧
        i.location_opt = some Location.Trash) ∧
    (2 ≤ ((items_opt.getD []).filter (fun i => i.selected)).length →
      context_menu_main_arm env mode loc items_opt sn sd ≠ trash_branch env) := by
  by_cases hg : ((sel_scan (items_opt.getD [])).selected_trash_only &&
      decide ((sel_scan (items_opt.getD [])).selected = 1)) = true
  · have harm : context_menu_main_arm env mode loc items_opt sn sd = trash_branch env := by
      simp only [context_menu_main_arm]
      rw [if_pos hg]
    have hcond := (trash_guard_iff (items_opt.getD [])).mp hg
    refine ⟨by simp [harm, hcond], ?_⟩
    intro h2
    obtain ⟨i, hfil, _⟩ := hcond
    rw [hfil] at h2
    simp at h2
  · have hcond : ¬∃ i, (items_opt.getD []).filter (fun i => i.selected) = [i] ∧
        i.location_opt = some Location.Trash :=
      fun hc => hg ((trash_guard_iff (items_opt.getD [])).mpr hc)
    have hne : context_menu_main_arm env mode loc items_opt sn sd ≠ trash_branch env := by
      simp only [context_menu_main_arm]
      rw [if_neg hg]
      cases hE : entry_actions env (sel_scan (items_opt.getD [])) with
      | some a =>
        show entry_branch a ≠ trash_branch env
        intro hEq
        have h1 := entry_branch_length a
        rw [hEq] at h1
        have h2 := trash_branch_length env
        omega
      | none =>
        show (if (sel_scan (items_opt.getD [])).selected > 0 then
            general_branch env mode loc (sel_scan (items_opt.getD [])).selected
              (sel_scan (items_opt.getD [])).selected_dir
              (dedup_consec (sort_strings (sel_scan (items_opt.getD [])).selected_types))
          else no_selection_branch env mode loc sn sd) ≠ trash_branch env
        by_cases hs : (sel_scan (items_opt.getD [])).selected > 0
        · rw [if_pos hs]
          intro hEq
          have h1 := general_branch_length env mode loc (sel_scan (items_opt.getD [])).selected
            (sel_scan (items_opt.getD [])).selected_dir
            (dedup_consec (sort_strings (sel_scan (items_opt.getD [])).selected_types))
          rw [hEq] at h1
          have h2 := trash_branch_length env
          omega
        · rw [if_neg hs]
          intro hEq
          have h1 := no_selection_branch_length env mode loc sn sd
          rw [hEq] at h1
          have h2 := trash_branch_length env
          omega
    exact ⟨iff_of_false hne hcond, fun _ => hne⟩

/-- Claim C6: in App or Desktop mode at a Desktop, Path, Search or Recents
location, `context_menu` produces the trash-specific branch (Open, then Empty
Trash exactly when `trash_entries() > 0`) if and only if exactly one item is
selected and that item's location is Trash; with two or more selected items
the branch is never taken. -/
theorem context_menu_trash_branch_iff (env : Env) (tab : Tab)
    (hm : tab.mode = Mode.App ∨ tab.mode = Mode.Desktop)
    (hl : tab.location.is_context_main = true) :
    (context_menu_children env tab = trash_branch env ↔
      ∃ i, (tab.items_opt.getD []).filter (fun i => i.selected) = [i] ∧
        i.location_opt = some Location.Trash) ∧
    (2 ≤ ((tab.items_opt.getD []).filter (fun i => i.selected)).length →
      context_menu_children env tab ≠ trash_branch env) := by
  rw [context_menu_children_main env tab hm hl]
  exact main_arm_trash_iff env tab.mode tab.location tab.items_opt
    tab.sort_name tab.sort_direction

theorem context_menu_trash_branch_iff_witness :
    context_menu_children env0 tab_trash = trash_branch env0 :=
  (context_menu_trash_branch_iff env0 tab_trash (Or.inl rfl) rfl).1.mpr
    ⟨item_trash, rfl, rfl⟩

theorem extract_mem_general (env : Env) (mode : Mode) (loc : Location)
    (s d : Nat) (t : List String) :
    (AbsElem.item "extract-here" (some "archive-extract-symbolic") AppAction.ExtractHere
        ∈ general_branch env mode loc s d t) ↔
      (t.filter (fun x => !((supported_archive_types env).contains x))).isEmpty = true := by
  simp [general_branch, mem_if_nil]

theorem compress_mem_general (env : Env) (mode : Mode) (loc : Location)
    (s d : Nat) (t : List String) :
    AbsElem.item "compress" (some "package-x-generic-symbolic") AppAction.Compress
      ∈ general_branch env mode loc s d t := by
  simp [general_branch, mem_if_nil]

theorem open_mem_general (env : Env) (mode : Mode) (loc : Location)
    (s d : Nat) (t : List String) :
    (AbsElem.item "open" (some "document-open-symbolic") AppAction.Open
        ∈ general_branch env mode loc s d t) ↔
      (d = 1 ∧ s = 1 ∨ d = 0) := by
  simp [general_branch, mem_if_nil]

theorem retained_empty_iff (env : Env) (items : List Item) :
    (((dedup_consec (sort_strings (sel_scan items).selected_types)).filter
        (fun x => !((supported_archive_types env).contains x))).isEmpty = true) ↔
      (∀ i ∈ items, i.selected = true → i.mime ∈ supported_archive_types env) := by
  rw [List.isEmpty_iff, List.filter_eq_nil]
  constructor
  · intro h i hi hsel
    have hmem : i.mime ∈ (sel_scan items).selected_types := by
      rw [sel_scan_types]
      exact List.mem_map.mpr ⟨i, List.mem_filter.mpr ⟨hi, hsel⟩, rfl⟩
    have hmem2 : i.mime ∈ dedup_consec (sort_strings (sel_scan items).selected_types) := by
      rw [mem_dedup_consec, mem_sort_strings]
      exact hmem
    have hx := h _ hmem2
    simpa [string_contains_iff] using hx
  · intro h a ha
    rw [mem_dedup_consec, mem_sort_strings, sel_scan_types] at ha
    obtain ⟨i, hif, rfl⟩ := List.mem_map.mp ha
    have hm := List.mem_filter.mp hif
    have hx := h i hm.1 hm.2
    simp [string_contains_iff, hx]

/-- Claim C7: in the general selected branch of `context_menu` (App or Desktop
mode, non-empty selection, not the single-Trash-item branch, not the
desktop-entry branch), Extract Here is included if and only if every selected
item's mime type is a supported archive type, and Compress is always
included. -/
theorem context_menu_extract_compress (env : Env) (tab : Tab)
    (hm : tab.mode = Mode.App ∨ tab.mode = Mode.Desktop)
    (hl : tab.location.is_context_main = true)
    (htrash : ∀ i, (tab.items_opt.getD []).filter (fun i => i.selected) = [i] →
      i.location_opt ≠ some Location.Trash)
    (hentry : entry_actions env (sel_scan (tab.items_opt.getD [])) = none)
    (hsel : 0 < ((tab.items_opt.getD []).filter (fun i => i.selected)).length) :
    (AbsElem.item "extract-here" (some "archive-extract-symbolic") AppAction.ExtractHere
        ∈ context_menu_children env tab ↔
      ∀ i ∈ tab.items_opt.getD [], i.selected = true →
        i.mime ∈ supported_archive_types env) ∧
    AbsElem.item "compress" (some "package-x-generic-symbolic") AppAction.Compress
      ∈ context_menu_children env tab := by
  rw [context_menu_children_main env tab hm hl]
  have hg : ¬((sel_scan (tab.items_opt.getD [])).selected_trash_only &&
      decide ((sel_scan (tab.items_opt.getD [])).selected = 1)) = true := by
    intro hgt
    obtain ⟨i, hfil, hloc⟩ := (trash_guard_iff _).mp hgt
    exact htrash i hfil hloc
  have hs' : (sel_scan (tab.items_opt.getD [])).selected > 0 := by
    rw [sel_scan_selected]
    exact hsel
  have harm : context_menu_main_arm env tab.mode tab.location tab.items_opt
      tab.sort_name tab.sort_direction =
      general_branch env tab.mode tab.location
        (sel_scan (tab.items_opt.getD [])).selected
        (sel_scan (tab.items_opt.getD [])).selected_dir
        (dedup_consec (sort_strings (sel_scan (tab.items_opt.getD [])).selected_types)) := by
    simp only [context_menu_main_arm, hentry]
    rw [if_neg hg, if_pos hs']
  rw [harm]
  exact ⟨(extract_mem_general env _ _ _ _ _).trans
      (retained_empty_iff env (tab.items_opt.getD [])),
    compress_mem_general env _ _ _ _ _⟩

theorem context_menu_extract_compress_witness :
    AbsElem.item "extract-here" (some "archive-extract-symbolic") AppAction.ExtractHere
      ∈ context_menu_children env0 tab_file ∧
    AbsElem.item "compress" (some "package-x-generic-symbolic") AppAction.Compress
      ∈ context_menu_children env0 tab_file := by
  have h := context_menu_extract_compress env0 tab_file (Or.inl rfl) rfl
    (fun i hf hloc => by
      have h2 : [item_file] = [i] := hf
      injection h2 with h3 _
      rw [← h3] at hloc
      simp [item_file] at hloc)
    rfl (by decide)
  exact ⟨h.1.mpr (by decide), h.2⟩

theorem filter_selected_dir (items : List Item) :
    items.filter (fun i => i.selected && i.is_dir)
      = (items.filter (fun i => i.selected)).filter (fun i => i.is_dir) := by
  induction items with
  | nil => rfl
  | cons i rest ih =>
    cases hs : i.selected <;> cases hd : i.is_dir <;>
      simp [List.filter_cons, hs, hd, ih]

theorem open_cond_counts_iff (items : List Item) :
    (((items.filter (fun i => i.selected)).length > 0 ∧
        (items.filter (fun i => i.selected && i.is_dir)).length = 0) ∨
      ((items.filter (fun i => i.selected && i.is_dir)).length = 1 ∧
        (items.filter (fun i => i.selected)).length = 1)) ↔
    open_enabled_spec items := by
  rw [filter_selected_dir]
  unfold open_enabled_spec
  constructor
  · rintro (⟨h1, h2⟩ | ⟨h1, h2⟩)
    · left
      constructor
      · intro hnil
        rw [hnil] at h1
        simp at h1
      · intro i hi
        rw [List.length_eq_zero, List.filter_eq_nil] at h2
        have hx := h2 i hi
        simpa using hx
    · right
      obtain ⟨a, ha⟩ := List.length_eq_one.mp h2
      refine ⟨a, ha, ?_⟩
      rw [ha] at h1
      by_cases hd : a.is_dir = true
      · exact hd
      · rw [List.filter_cons] at h1
        simp [hd] at h1
  · rintro (⟨h1, h2⟩ | ⟨a, ha, hd⟩)
    · left
      constructor
      · cases hfil : items.filter (fun i => i.selected) with
        | nil => exact absurd hfil h1
        | cons x xs => simp [hfil]
      · rw [List.length_eq_zero, List.filter_eq_nil]
        intro i hi
        simp [h2 i hi]
    · right
      rw [ha]
      exact ⟨by simp [List.filter_cons, hd], rfl⟩

theorem open_cond_general_iff (items : List Item)
    (hs : 0 < (items.filter (fun i => i.selected)).length) :
    ((items.filter (fun i => i.selected && i.is_dir)).length = 1 ∧
        (items.filter (fun i => i.selected)).length = 1 ∨
      (items.filter (fun i => i.selected && i.is_dir)).length = 0) ↔
    open_enabled_spec items := by
  rw [← open_cond_counts_iff]
  omega

theorem open_mem_menu_bar_file (selected selected_dir : Nat) :
    (BarItem.Button "open" (some "document-open-symbolic") AppAction.Open
        ∈ menu_bar_file_items selected selected_dir ↔
      (selected > 0 ∧ selected_dir = 0) ∨ (selected_dir = 1 ∧ selected = 1)) ∧
    (BarItem.ButtonDisabled "open" (some "document-open-symbolic") AppAction.Open
        ∈ menu_bar_file_items selected selected_dir ↔
      ¬((selected > 0 ∧ selected_dir = 0) ∨ (selected_dir = 1 ∧ selected = 1))) := by
  constructor <;> simp [menu_bar_file_items, menu_button_optional, eq_ite_iff]

/-- Claim C10: the Open entry of `menu_bar`'s File menu is enabled if and only
if either at least one item is selected and none of the selected items is a
directory, or exactly one item is selected and it is a directory (so with no
tab, an empty selection, or a mixed selection it is disabled); and the same
condition decides whether the Open item appears in the general selected
branch of `context_menu`. -/
theorem open_item_enabled_iff :
    (∀ tab_opt : Option Tab,
      (BarItem.Button "open" (some "document-open-symbolic") AppAction.Open
          ∈ menu_bar_file_items
            (bar_scan ((tab_opt.bind Tab.items_opt).getD [])).selected
            (bar_scan ((tab_opt.bind Tab.items_opt).getD [])).selected_dir ↔
        open_enabled_spec ((tab_opt.bind Tab.items_opt).getD [])) ∧
      (BarItem.ButtonDisabled "open" (some "document-open-symbolic") AppAction.Open
          ∈ menu_bar_file_items
            (bar_scan ((tab_opt.bind Tab.items_opt).getD [])).selected
            (bar_scan ((tab_opt.bind Tab.items_opt).getD [])).selected_dir ↔
        ¬open_enabled_spec ((tab_opt.bind Tab.items_opt).getD []))) ∧
    (∀ (env : Env) (tab : Tab),
      tab.mode = Mode.App ∨ tab.mode = Mode.Desktop →
      tab.location.is_context_main = true →
      (∀ i, (tab.items_opt.getD []).filter (fun i => i.selected) = [i] →
        i.location_opt ≠ some Location.Trash) →
      entry_actions env (sel_scan (tab.items_opt.getD [])) = none →
      0 < ((tab.items_opt.getD []).filter (fun i => i.selected)).length →
      (AbsElem.item "open" (some "document-open-symbolic") AppAction.Open
          ∈ context_menu_children env tab ↔
        open_enabled_spec (tab.items_opt.getD []))) := by
  constructor
  · intro tab_opt
    rw [bar_scan_selected, bar_scan_dir]
    exact ⟨(open_mem_menu_bar_file _ _).1.trans (open_cond_counts_iff _),
      (open_mem_menu_bar_file _ _).2.trans (not_congr (open_cond_counts_iff _))⟩
  · intro env tab hm hl htrash hentry hsel
    rw [context_menu_children_main env tab hm hl]
    have hg : ¬((sel_scan (tab.items_opt.getD [])).selected_trash_only &&
        decide ((sel_scan (tab.items_opt.getD [])).selected = 1)) = true := by
      intro hgt
      obtain ⟨i, hfil, hloc⟩ := (trash_guard_iff _).mp hgt
      exact htrash i hfil hloc
    have hs' : (sel_scan (tab.items_opt.getD [])).selected > 0 := by
      rw [sel_scan_selected]
      exact hsel
    have harm : context_menu_main_arm env tab.mode tab.location tab.items_opt
        tab.sort_name tab.sort_direction =
        general_branch env tab.mode tab.location
          (sel_scan (tab.items_opt.getD [])).selected
          (sel_scan (tab.items_opt.getD [])).selected_dir
          (dedup_consec (sort_strings (sel_scan (tab.items_opt.getD [])).selected_types)) := by
      simp only [context_menu_main_arm, hentry]
      rw [if_neg hg, if_pos hs']
    rw [harm, sel_scan_selected, sel_scan_dir]
    exact (open_mem_general env tab.mode tab.location _ _ _).trans
      (open_cond_general_iff (tab.items_opt.getD []) hsel)

theorem open_item_enabled_iff_witness :
    BarItem.Button "open" (some "document-open-symbolic") AppAction.Open
      ∈ menu_bar_file_items
        (bar_scan (((some tab_file).bind Tab.items_opt).getD [])).selected
        (bar_scan (((some tab_file).bind Tab.items_opt).getD [])).selected_dir ∧
    AbsElem.item "open" (some "document-open-symbolic") AppAction.Open
      ∈ context_menu_children env0 tab_file := by
  refine ⟨(open_item_enabled_iff.1 (some tab_file)).1.mpr ?_,
    (open_item_enabled_iff.2 env0 tab_file (Or.inl rfl) rfl
      (fun i hf hloc => by
        have h2 : [item_file] = [i] := hf
        injection h2 with h3 _
        rw [← h3] at hloc
        simp [item_file] at hloc)
      rfl (by decide)).mpr ?_⟩ <;>
  exact Or.inl ⟨by decide, by decide⟩

theorem render_children_spec (kb : List (KeyBind × AppAction)) (c : IconCache)
    (l : List AbsElem) :
    ∀ e ∈ (render_children kb c l).1,
      e = MenuElement.divider ∨
      ∃ lab ic a, e = MenuElement.item lab ic (find_key kb a) a
        (TabMessage.ContextAction a) := by
  induction l generalizing c with
  | nil => simp [render_children]
  | cons x rest ih =>
    intro e he
    simp only [render_children] at he
    rw [List.mem_cons] at he
    cases he with
    | inl h1 =>
      subst h1
      cases x with
      | divider => exact Or.inl rfl
      | item lab ic a =>
        cases ic with
        | none => exact Or.inr ⟨lab, none, a, rfl⟩
        | some n => exact Or.inr ⟨lab, some ((c.get_handle n 14).1), a, rfl⟩
    | inr h2 => exact ih _ e h2

/-- Claim C8: every entry `context_menu` constructs carries exactly one
action, and pressing it emits `tab::Message::ContextAction` holding exactly
that action; no entry emits any other message. -/
theorem context_menu_emits_context_action (env : Env) (tab : Tab)
    (kb : List (KeyBind × AppAction)) (c : IconCache) :
    ∀ e ∈ (context_menu env tab kb c).1,
      e = MenuElement.divider ∨
      ∃ lab ic k a, e = MenuElement.item lab ic k a (TabMessage.ContextAction a) := by
  intro e he
  have h := render_children_spec kb c (context_menu_children env tab) e he
  cases h with
  | inl h1 => exact Or.inl h1
  | inr h1 =>
    obtain ⟨lab, ic, a, rfl⟩ := h1
    exact Or.inr ⟨lab, ic, find_key kb a, a, rfl⟩

theorem context_menu_emits_context_action_witness :
    MenuElement.item "sort-by-name ⬇" none ""
        (AppAction.ToggleSort HeadingOptions.Name)
        (TabMessage.ContextAction (AppAction.ToggleSort HeadingOptions.Name))
      = MenuElement.divider ∨
    ∃ lab ic k a,
      MenuElement.item "sort-by-name ⬇" none ""
          (AppAction.ToggleSort HeadingOptions.Name)
          (TabMessage.ContextAction (AppAction.ToggleSort HeadingOptions.Name))
        = MenuElement.item lab ic k a (TabMessage.ContextAction a) :=
  context_menu_emits_context_action env0 tab_sorts [] ⟨[]⟩ _ (by decide)

/-- Claim C2: the menu builders are pure: with equal tab state, equal
key-binding tables and equal icon-cache contents, `context_menu`, `menu_bar`
and `dialog_menu` produce equal menu trees; and the shortcut text displayed
by a context-menu item is `find_key` of the key-binding table at the item's
action, so it depends on nothing else. -/
theorem menu_builders_deterministic :
    (∀ (env : Env) (t1 t2 : Tab) (kb1 kb2 : List (KeyBind × AppAction))
        (c1 c2 : IconCache), t1 = t2 → kb1 = kb2 → c1 = c2 →
      context_menu env t1 kb1 c1 = context_menu env t2 kb2 c2) ∧
    (∀ (to1 to2 : Option Tab) (cf1 cf2 : Config)
        (kb1 kb2 : List (KeyBind × AppAction)) (c1 c2 : IconCache),
      to1 = to2 → cf1 = cf2 → kb1 = kb2 → c1 = c2 →
      menu_bar to1 cf1 kb1 c1 = menu_bar to2 cf2 kb2 c2) ∧
    (∀ (t1 t2 : Tab) (kb1 kb2 : List (KeyBind × AppAction)) (s1 s2 : Bool)
        (c1 c2 : IconCache), t1 = t2 → kb1 = kb2 → s1 = s2 → c1 = c2 →
      dialog_menu t1 kb1 s1 c1 = dialog_menu t2 kb2 s2 c2) ∧
    (∀ (env : Env) (tab : Tab) (kb : List (KeyBind × AppAction)) (c : IconCache)
        (lab : String) (ic : Option Handle) (k : String) (a : AppAction)
        (m : TabMessage),
      MenuElement.item lab ic k a m ∈ (context_menu env tab kb c).1 →
      k = find_key kb a) := by
  refine ⟨?_, ?_, ?_, ?_⟩
  · rintro env t1 t2 kb1 kb2 c1 c2 rfl rfl rfl
    rfl
  · rintro to1 to2 cf1 cf2 kb1 kb2 c1 c2 rfl rfl rfl rfl
    rfl
  · rintro t1 t2 kb1 kb2 s1 s2 c1 c2 rfl rfl rfl rfl
    rfl
  · intro env tab kb c lab ic k a m hmem
    have h := render_children_spec kb c (context_menu_children env tab) _ hmem
    cases h with
    | inl h1 => exact absurd h1 (by simp)
    | inr h1 =>
      obtain ⟨lab2, ic2, a2, heq⟩ := h1
      rw [MenuElement.item.injEq] at heq
      obtain ⟨-, -, hk, ha, -⟩ := heq
      rw [hk, ha]

theorem menu_builders_deterministic_witness :
    context_menu env0 tab_sorts [] ⟨[]⟩ = context_menu env0 tab_sorts [] ⟨[]⟩ ∧
    "" = find_key [] (AppAction.ToggleSort HeadingOptions.Name) :=
  ⟨menu_builders_deterministic.1 env0 tab_sorts tab_sorts [] [] ⟨[]⟩ ⟨[]⟩ rfl rfl rfl,
   menu_builders_deterministic.2.2.2 env0 tab_sorts [] ⟨[]⟩ "sort-by-name ⬇" none ""
     (AppAction.ToggleSort HeadingOptions.Name)
     (TabMessage.ContextAction (AppAction.ToggleSort HeadingOptions.Name)) (by decide)⟩
